import Mathlib

/-!
Shallow embedding of the backtesting core of the `ai-hedge-fund` repository:
the `Portfolio` ledger and its four trade-application primitives
(`src/backtesting/portfolio.py`), the performance-metrics calculator
(`src/backtesting/metrics.py`), and the agent-output normalization of the
controller (`src/backtesting/controller.py`).

Python floats are embedded as rationals (`ℚ`); share counts are integers
(`Int`).  The handful of places where IEEE non-finite values (NaN, ±inf)
can actually arise in the metrics pipeline are modelled explicitly with the
`Xfloat` type.
-/

set_option maxHeartbeats 1000000

namespace AIHedgeFund

/-- Truncation toward zero: the behaviour of Python's `int()` applied to a
float (used by the clamping computations in `apply_long_buy` and
`apply_short_open`). -/
def truncToInt (x : ℚ) : Int := if 0 ≤ x then ⌊x⌋ else -⌊-x⌋

/-- Per-ticker position state (`PositionState` in `src/backtesting/types.py`). -/
structure PositionState where
  long : Int
  short : Int
  long_cost_basis : ℚ
  short_cost_basis : ℚ
  short_margin_used : ℚ
  deriving DecidableEq, Repr

/-- Per-ticker realized P&L (`TickerRealizedGains` in `src/backtesting/types.py`). -/
structure TickerRealizedGains where
  long : ℚ
  short : ℚ
  deriving DecidableEq, Repr

/-- Portfolio state (`Portfolio._portfolio` in `src/backtesting/portfolio.py`).
The Python `positions` / `realized_gains` dicts are keyed exactly by the
tickers passed at construction; we keep that key set in `tickers` and model
the dicts as total functions (all the verified operations are applied to
keys of the dict, as in the source). -/
structure Portfolio where
  cash : ℚ
  margin_used : ℚ
  margin_requirement : ℚ
  tickers : List String
  positions : String → PositionState
  realized_gains : String → TickerRealizedGains

/-- `Portfolio.__init__`: every ticker starts with the zero position and zero
realized gains.  Python dict keys are unique, hence the `dedup`. -/
def Portfolio.init (tickers : List String) (initial_cash : ℚ)
    (margin_requirement : ℚ) : Portfolio where
  cash := initial_cash
  margin_used := 0
  margin_requirement := margin_requirement
  tickers := tickers.dedup
  positions := fun _ => ⟨0, 0, 0, 0, 0⟩
  realized_gains := fun _ => ⟨0, 0⟩

/-- The state mutation shared by the two fill branches of
`Portfolio.apply_long_buy` (lines 88-98 and 100-111 of portfolio.py):
update the weighted cost basis, increment `long`, debit `cash`.
`pos` is `p.positions ticker` and `cost = addQ * price`. -/
def buyUpdate (p : Portfolio) (ticker : String) (pos : PositionState)
    (addQ : Int) (cost : ℚ) : Portfolio :=
  { p with
    cash := p.cash - cost,
    positions := Function.update p.positions ticker
      { pos with
        long := pos.long + addQ,
        long_cost_basis :=
          if 0 < pos.long + addQ then
            (pos.long_cost_basis * (pos.long : ℚ) + cost) / ((pos.long + addQ : Int) : ℚ)
          else pos.long_cost_basis } }

/-- `Portfolio.apply_long_buy` (portfolio.py lines 82-112).  Returns the new
state and the executed quantity. -/
def Portfolio.apply_long_buy (p : Portfolio) (ticker : String) (quantity : Int)
    (price : ℚ) : Portfolio × Int :=
  if quantity ≤ 0 then (p, 0) else
  let pos := p.positions ticker
  if (quantity : ℚ) * price ≤ p.cash then
    (buyUpdate p ticker pos quantity ((quantity : ℚ) * price), quantity)
  else
    let maxQ : Int := if 0 < price then truncToInt (p.cash / price) else 0
    if 0 < maxQ then
      (buyUpdate p ticker pos maxQ ((maxQ : ℚ) * price), maxQ)
    else (p, 0)

/-- `Portfolio.apply_long_sell` (portfolio.py lines 114-126). -/
def Portfolio.apply_long_sell (p : Portfolio) (ticker : String) (quantity : Int)
    (price : ℚ) : Portfolio × Int :=
  let pos := p.positions ticker
  let q := if 0 < quantity then min quantity pos.long else 0
  if q ≤ 0 then (p, 0) else
  let avgCost := if 0 < pos.long then pos.long_cost_basis else 0
  let gain := (price - avgCost) * (q : ℚ)
  let newLong := pos.long - q
  ({ p with
     cash := p.cash + (q : ℚ) * price,
     positions := Function.update p.positions ticker
       { pos with
         long := newLong,
         long_cost_basis := if newLong = 0 then 0 else pos.long_cost_basis },
     realized_gains := Function.update p.realized_gains ticker
       { p.realized_gains ticker with
         long := (p.realized_gains ticker).long + gain } }, q)

/-- The state mutation shared by the two fill branches of
`Portfolio.apply_short_open` (lines 136-149 and 151-166 of portfolio.py). -/
def shortOpenUpdate (p : Portfolio) (ticker : String) (pos : PositionState)
    (addQ : Int) (price : ℚ) : Portfolio :=
  let marginReq : ℚ := price * (addQ : ℚ) * p.margin_requirement
  { p with
    cash := p.cash + price * (addQ : ℚ) - marginReq,
    margin_used := p.margin_used + marginReq,
    positions := Function.update p.positions ticker
      { pos with
        short := pos.short + addQ,
        short_cost_basis :=
          if 0 < pos.short + addQ then
            (pos.short_cost_basis * (pos.short : ℚ) + price * (addQ : ℚ)) /
              ((pos.short + addQ : Int) : ℚ)
          else pos.short_cost_basis,
        short_margin_used := pos.short_margin_used + marginReq } }

/-- `Portfolio.apply_short_open` (portfolio.py lines 128-167). -/
def Portfolio.apply_short_open (p : Portfolio) (ticker : String) (quantity : Int)
    (price : ℚ) : Portfolio × Int :=
  if quantity ≤ 0 then (p, 0) else
  let pos := p.positions ticker
  if price * (quantity : ℚ) * p.margin_requirement ≤ p.cash then
    (shortOpenUpdate p ticker pos quantity price, quantity)
  else
    let maxQ : Int :=
      if 0 < p.margin_requirement ∧ 0 < price then
        truncToInt (p.cash / (price * p.margin_requirement))
      else 0
    if 0 < maxQ then
      (shortOpenUpdate p ticker pos maxQ price, maxQ)
    else (p, 0)

/-- `Portfolio.apply_short_cover` (portfolio.py lines 169-191). -/
def Portfolio.apply_short_cover (p : Portfolio) (ticker : String) (quantity : Int)
    (price : ℚ) : Portfolio × Int :=
  let pos := p.positions ticker
  let q := if 0 < quantity then min quantity pos.short else 0
  if q ≤ 0 then (p, 0) else
  let avgShort := if 0 < pos.short then pos.short_cost_basis else 0
  let gain := (avgShort - price) * (q : ℚ)
  let portion : ℚ := if 0 < pos.short then (q : ℚ) / ((pos.short : Int) : ℚ) else 1
  let release := portion * pos.short_margin_used
  let newShort := pos.short - q
  ({ p with
     cash := p.cash + release - (q : ℚ) * price,
     margin_used := p.margin_used - release,
     positions := Function.update p.positions ticker
       (if newShort = 0 then
          { pos with short := newShort, short_cost_basis := 0, short_margin_used := 0 }
        else
          { pos with short := newShort,
                     short_margin_used := pos.short_margin_used - release }),
     realized_gains := Function.update p.realized_gains ticker
       { p.realized_gains ticker with
         short := (p.realized_gains ticker).short + gain } }, q)

/-- An abstract trade operation against the portfolio: one call of one of the
four primitives with its arguments. -/
inductive Op where
  | buy (ticker : String) (quantity : Int) (price : ℚ)
  | sell (ticker : String) (quantity : Int) (price : ℚ)
  | shortOpen (ticker : String) (quantity : Int) (price : ℚ)
  | shortCover (ticker : String) (quantity : Int) (price : ℚ)
  deriving DecidableEq, Repr

/-- The ticker an operation addresses. -/
def Op.ticker : Op → String
  | .buy t _ _ => t
  | .sell t _ _ => t
  | .shortOpen t _ _ => t
  | .shortCover t _ _ => t

/-- Whether an operation belongs to the long leg (`apply_long_buy` /
`apply_long_sell`). -/
def Op.isLong : Op → Bool
  | .buy _ _ _ => true
  | .sell _ _ _ => true
  | .shortOpen _ _ _ => false
  | .shortCover _ _ _ => false

/-- Dispatch one operation to the corresponding primitive. -/
def applyOp (p : Portfolio) : Op → Portfolio × Int
  | .buy t q pr => p.apply_long_buy t q pr
  | .sell t q pr => p.apply_long_sell t q pr
  | .shortOpen t q pr => p.apply_short_open t q pr
  | .shortCover t q pr => p.apply_short_cover t q pr

/-- Run a sequence of operations, discarding the returned quantities. -/
def runOps : Portfolio → List Op → Portfolio
  | p, [] => p
  | p, op :: ops => runOps (applyOp p op).1 ops

/-- Run a sequence of operations, recording each operation together with the
quantity the call returned (its "executed quantity"). -/
def runTrace : Portfolio → List Op → Portfolio × List (Op × Int)
  | p, [] => (p, [])
  | p, op :: ops =>
    let r := applyOp p op
    let rest := runTrace r.1 ops
    (rest.1, (op, r.2) :: rest.2)

/-- Sum over the buy operations of a trace of (executed quantity × price). -/
def buyCostSum : List (Op × Int) → ℚ
  | [] => 0
  | (.buy _ _ pr, e) :: rest => (e : ℚ) * pr + buyCostSum rest
  | _ :: rest => buyCostSum rest

/-- Sum over the sell operations of a trace of (executed quantity × price). -/
def sellProceedsSum : List (Op × Int) → ℚ
  | [] => 0
  | (.sell _ _ pr, e) :: rest => (e : ℚ) * pr + sellProceedsSum rest
  | _ :: rest => sellProceedsSum rest

/-- Sum over all tickers of the per-position reserved short margin. -/
def marginSum (p : Portfolio) : ℚ :=
  (p.tickers.map fun t => (p.positions t).short_margin_used).sum

/-- The margin-used invariant: the portfolio's running `margin_used` total
equals the sum of the per-position `short_margin_used` fields. -/
def marginInvariant (p : Portfolio) : Prop := p.margin_used = marginSum p

/-- The trade P&L an operation books to `realized_gains[t].long` from state
`p`: zero unless the operation is a long sell on `t` with a positive clamped
quantity, in which case it is `(price - avg_cost) * executed` exactly as in
line 120 of portfolio.py. -/
def opLongGain (p : Portfolio) (op : Op) (t : String) : ℚ :=
  match op with
  | .sell tk q pr =>
    if tk = t then
      let pos := p.positions tk
      let e := if 0 < q then min q pos.long else 0
      if e ≤ 0 then 0
      else (pr - (if 0 < pos.long then pos.long_cost_basis else 0)) * (e : ℚ)
    else 0
  | _ => 0

/-- The trade P&L an operation books to `realized_gains[t].short` from state
`p`: zero unless the operation is a short cover on `t` with a positive
clamped quantity, in which case it is `(avg_short_price - price) * executed`
exactly as in line 176 of portfolio.py. -/
def opShortGain (p : Portfolio) (op : Op) (t : String) : ℚ :=
  match op with
  | .shortCover tk q pr =>
    if tk = t then
      let pos := p.positions tk
      let e := if 0 < q then min q pos.short else 0
      if e ≤ 0 then 0
      else ((if 0 < pos.short then pos.short_cost_basis else 0) - pr) * (e : ℚ)
    else 0
  | _ => 0

/-- Total long-side P&L booked to ticker `t` over a sequence of operations
(each contribution computed from the state at the time of the operation). -/
def longGainsAccum (p : Portfolio) (t : String) : List Op → ℚ
  | [] => 0
  | op :: ops => opLongGain p op t + longGainsAccum (applyOp p op).1 t ops

/-- Total short-side P&L booked to ticker `t` over a sequence of operations. -/
def shortGainsAccum (p : Portfolio) (t : String) : List Op → ℚ
  | [] => 0
  | op :: ops => opShortGain p op t + shortGainsAccum (applyOp p op).1 t ops

/-! ### Performance metrics (`src/backtesting/metrics.py`)

`compute_metrics` runs on pandas/numpy float64 data.  Finite values are
embedded as rationals; the non-finite values that the pipeline can actually
produce (NaN from `0/0` in `pct_change`, ±inf from `x/0`) are modelled
explicitly by `Xfloat`.  The standard deviations are only ever used through
the comparison `std > 1e-12`; since `std = sqrt variance` and
`1e-12 > 0`, that comparison is represented exactly as
`variance > (1e-12)^2` (see `StdVal` and `stdGtThr`). -/

/-- A float64 value as produced by the metrics pipeline: finite, ±inf or NaN. -/
inductive Xfloat where
  | fin (q : ℚ)
  | pinf
  | ninf
  | nan
  deriving DecidableEq, Repr

/-- One step of `Series.pct_change`: `(cur - prev) / prev` with IEEE
semantics for a zero denominator (`0/0 = NaN`, `x/0 = ±inf`). -/
def pctChange (prev cur : ℚ) : Xfloat :=
  if prev = 0 then
    if cur - prev = 0 then .nan else if 0 < cur - prev then .pinf else .ninf
  else .fin ((cur - prev) / prev)

/-- `df["Portfolio Value"].pct_change()` without its leading NaN row:
the return between each pair of consecutive values. -/
def dailyReturns (vs : List ℚ) : List Xfloat :=
  (vs.zip vs.tail).map fun ab => pctChange ab.1 ab.2

/-- `clean_returns = df["Daily Return"].dropna()`: the non-NaN daily returns
(the leading NaN of `pct_change` is dropped here too, as in the source). -/
def cleanReturns (vs : List ℚ) : List Xfloat :=
  (dailyReturns vs).filter fun r => r ≠ .nan

/-- Subtract a finite constant (the daily risk-free rate) from a value. -/
def xsubFin (x : Xfloat) (c : ℚ) : Xfloat :=
  match x with
  | .fin q => .fin (q - c)
  | .pinf => .pinf
  | .ninf => .ninf
  | .nan => .nan

/-- The comparison `x < 0` with IEEE semantics (`NaN < 0` is false). -/
def xltZero (x : Xfloat) : Bool :=
  match x with
  | .fin q => decide (q < 0)
  | .ninf => true
  | .pinf => false
  | .nan => false

/-- The comparison `0 < x` with IEEE semantics (`NaN > 0` is false). -/
def xgtZero (x : Xfloat) : Bool :=
  match x with
  | .fin q => decide (0 < q)
  | .pinf => true
  | .ninf => false
  | .nan => false

/-- The finite part of a value (only used on lists of finite values). -/
def finPart (x : Xfloat) : ℚ :=
  match x with
  | .fin q => q
  | _ => 0

/-- Whether a value is finite. -/
def Xfloat.isFin (x : Xfloat) : Bool :=
  match x with
  | .fin _ => true
  | _ => false

/-- `Series.mean()` over float64 values: NaN if any NaN or both infinities
are present (or the list is empty), ±inf if one infinity dominates,
otherwise the arithmetic mean. -/
def xmean (l : List Xfloat) : Xfloat :=
  if l.any fun x => x = .nan then .nan
  else if l.any fun x => x = .pinf then
    (if l.any fun x => x = .ninf then .nan else .pinf)
  else if l.any fun x => x = .ninf then .ninf
  else if l.isEmpty then .nan
  else .fin ((l.map finPart).sum / (l.length : ℚ))

/-- The result of `Series.std()` (sample standard deviation, `ddof=1`),
represented by its square: `nanStd` when the result is NaN (fewer than two
observations, or a non-finite observation), otherwise `finStd v` where the
standard deviation is `sqrt v`. -/
inductive StdVal where
  | nanStd
  | finStd (variance : ℚ)
  deriving DecidableEq, Repr

/-- `Series.std()` with `ddof=1` (pandas default), as a `StdVal`. -/
def xstd (l : List Xfloat) : StdVal :=
  if l.length < 2 then .nanStd
  else if l.any fun x => ¬ x.isFin then .nanStd
  else
    let qs := l.map finPart
    let m := qs.sum / (qs.length : ℚ)
    .finStd ((qs.map fun q => (q - m) ^ 2).sum / ((qs.length : ℚ) - 1))

/-- The threshold `1e-12` of the source. -/
def stdThreshold : ℚ := 1 / 10 ^ 12

/-- The source's comparison `std > 1e-12`: false for a NaN std; for a finite
std it is `sqrt v > 1e-12`, i.e. exactly `v > (1e-12)^2`. -/
def stdGtThr (s : StdVal) : Bool :=
  match s with
  | .nanStd => false
  | .finStd v => decide (stdThreshold ^ 2 < v)

/-- The value of one computed metric.  The two sentinel branches of the
source (`sharpe = 0.0`, `sortino = float("inf")` / `0.0`) are `zeroV` and
`posInfV`; `annualized days m v` stands for the float
`sqrt(days) * m / sqrt(v)` produced by the non-degenerate branch (its exact
value is irrational in general and is never needed by the claims); `xf x`
is a plain float value (used for max drawdown, `min_dd * 100`). -/
inductive MVal where
  | zeroV
  | posInfV
  | annualized (days : ℕ) (m : Xfloat) (v : ℚ)
  | xf (x : Xfloat)
  deriving DecidableEq, Repr

/-- Lines 44-47 of metrics.py: Sharpe is the annualized ratio when
`std_excess > 1e-12`, else the 0.0 sentinel. -/
def sharpeOf (days : ℕ) (excess : List Xfloat) : MVal :=
  match xstd excess with
  | .finStd v => if stdThreshold ^ 2 < v then .annualized days (xmean excess) v else .zeroV
  | .nanStd => .zeroV

/-- Lines 49-57 of metrics.py: Sortino via the downside deviation, with the
`+inf` / `0.0` sentinel policy. -/
def sortinoOf (days : ℕ) (excess : List Xfloat) : MVal :=
  let negEx := excess.filter fun x => xltZero x
  let sentinel : MVal := if xgtZero (xmean excess) then .posInfV else .zeroV
  if 0 < negEx.length then
    match xstd negEx with
    | .finStd v => if stdThreshold ^ 2 < v then .annualized days (xmean excess) v else sentinel
    | .nanStd => sentinel
  else sentinel

/-- `cummax` continuation: running maxima of the remaining values, given the
maximum so far. -/
def runMaxAux (m : ℚ) : List ℚ → List ℚ
  | [] => []
  | v :: vs => max m v :: runMaxAux (max m v) vs

/-- `df["Portfolio Value"].cummax()`. -/
def runMaxes : List ℚ → List ℚ
  | [] => []
  | v :: vs => v :: runMaxAux v vs

/-- One entry of `(value - rolling_max) / rolling_max` with IEEE semantics
for a zero rolling maximum. -/
def ddOf (v rm : ℚ) : Xfloat :=
  if rm = 0 then
    if v - rm = 0 then .nan else if 0 < v - rm then .pinf else .ninf
  else .fin ((v - rm) / rm)

/-- The drawdown series of a value series. -/
def drawdowns (vs : List ℚ) : List Xfloat :=
  (vs.zip (runMaxes vs)).map fun p => ddOf p.1 p.2

/-- `Series.min()` (skipna=True): minimum over the non-NaN entries, NaN if
none remain. -/
def xminSkip (l : List Xfloat) : Xfloat :=
  let l' := l.filter fun x => x ≠ .nan
  if l'.isEmpty then .nan
  else if l'.any fun x => x = .ninf then .ninf
  else
    match l'.filterMap (fun x => match x with | .fin q => some q | _ => none) with
    | [] => .pinf
    | q :: qs => .fin (qs.foldl min q)

/-- Multiplication by the positive constant 100 (`min_dd * 100.0`). -/
def xmul100 (x : Xfloat) : Xfloat :=
  match x with
  | .fin q => .fin (q * 100)
  | .pinf => .pinf
  | .ninf => .ninf
  | .nan => .nan

/-- `drawdown.idxmin()`: the date of the first entry equal to the minimum. -/
def idxminDate (dates : List String) (dds : List Xfloat) (m : Xfloat) : Option String :=
  ((dates.zip dds).find? fun p => p.2 = m).map Prod.fst

/-- The computed metrics record (`PerformanceMetrics` in types.py, restricted
to the keys `compute_metrics` produces). -/
structure PerformanceMetrics where
  sharpe_ratio : Option MVal
  sortino_ratio : Option MVal
  max_drawdown : Option MVal
  max_drawdown_date : Option String
  deriving DecidableEq, Repr

/-- The all-`None` record returned by the guard branches. -/
def nullMetrics : PerformanceMetrics :=
  { sharpe_ratio := none, sortino_ratio := none, max_drawdown := none,
    max_drawdown_date := none }

/-- `PerformanceMetricsCalculator.compute_metrics` (metrics.py lines 22-77).
`days` is `self.annual_trading_days`, `rfRate` is `self.annual_rf_rate`, and
`values` is the list of `(Date, Portfolio Value)` points.  With typed input
points the `df.empty or "Portfolio Value" not in df` guard of line 30
coincides with the emptiness test of line 26. -/
def compute_metrics (days : ℕ) (rfRate : ℚ) (values : List (String × ℚ)) :
    PerformanceMetrics :=
  if values.isEmpty then nullMetrics else
  let vs := values.map Prod.snd
  if (cleanReturns vs).length < 2 then nullMetrics else
  let excess := (cleanReturns vs).map fun r => xsubFin r (rfRate / (days : ℚ))
  let minDd := xminSkip (drawdowns vs)
  { sharpe_ratio := some (sharpeOf days excess),
    sortino_ratio := some (sortinoOf days excess),
    max_drawdown :=
      some (if (drawdowns vs).isEmpty then .xf (.fin 0) else .xf (xmul100 minDd)),
    max_drawdown_date :=
      if (drawdowns vs).isEmpty then none
      else if xltZero minDd then idxminDate (values.map Prod.fst) (drawdowns vs) minDd
      else none }

/-! ### Agent controller (`src/backtesting/controller.py`)

Only the output-normalization part of `run_agent` (lines 41-65) is modelled;
the call of the external agent itself is out of scope, so `run_agent`'s
model takes the agent's raw `decisions` payload as input.  A raw Python
value proposed as an action is either a string or something else
(`Action(x)` succeeds exactly on the five action strings); a raw value
proposed as a quantity is represented by the result of `float(x)`:
`some q` when the coercion succeeds, `none` when it raises. -/

/-- A raw `action` value from the agent: a string, or a non-string value. -/
inductive RawAction where
  | strV (s : String)
  | nonStr
  deriving DecidableEq, Repr

/-- A raw per-ticker decision dict from the agent.  `action`/`quantity` are
`none` when the key is absent.  A present quantity is represented by the
outcome of `float(...)` on it. -/
structure RawDecision where
  action : Option RawAction
  quantity : Option (Option ℚ)
  deriving DecidableEq, Repr

/-- A normalized decision (`AgentDecision` in types.py). -/
structure AgentDecision where
  action : String
  quantity : ℚ
  deriving DecidableEq, Repr

/-- The members of the `Action` enum (types.py lines 10-15). -/
def validActions : List String := ["buy", "sell", "short", "cover", "hold"]

/-- `Action(action).value` with the `except` fallback to `Action.HOLD`
(controller.py lines 54-57). -/
def normalizeAction (a : RawAction) : String :=
  match a with
  | .strV s => if s ∈ validActions then s else "hold"
  | .nonStr => "hold"

/-- Normalization of one raw decision (controller.py lines 46-58):
`d.get("action", "hold")`, `d.get("quantity", 0)`, `float` coercion with
fallback 0.0, action validation with fallback `hold`. -/
def normalizeDecision (d : RawDecision) : AgentDecision :=
  { action := normalizeAction (d.action.getD (.strV "hold")),
    quantity := (d.quantity.getD (some 0)).getD 0 }

/-- The `normalized_decisions` loop of `AgentController.run_agent`
(controller.py lines 44-58): one normalized entry per requested ticker,
missing tickers defaulting to the empty dict. -/
def run_agent_decisions (tickers : List String)
    (decisions_in : String → Option RawDecision) : List (String × AgentDecision) :=
  tickers.map fun t => (t, normalizeDecision ((decisions_in t).getD ⟨none, none⟩))

/-! ### Helper lemmas about the trade primitives -/

theorem trunc_max_eq_floor_max (x : ℚ) : max (truncToInt x) 0 = max ⌊x⌋ 0 := by
  unfold truncToInt
  split_ifs with h
  · rfl
  · push_neg at h
    have h1 : ⌊x⌋ ≤ 0 := by
      calc ⌊x⌋ ≤ ⌊(0 : ℚ)⌋ := Int.floor_le_floor h.le
      _ = 0 := Int.floor_zero
    have h2 : (0 : ℤ) ≤ ⌊-x⌋ := Int.le_floor.mpr (by push_cast; linarith)
    rw [max_eq_right h1, max_eq_right (by omega : -⌊-x⌋ ≤ 0)]

theorem apply_long_buy_cash (p : Portfolio) (t : String) (q : Int) (pr : ℚ) :
    (p.apply_long_buy t q pr).1.cash
      = p.cash - (((p.apply_long_buy t q pr).2 : ℚ) * pr) := by
  simp only [Portfolio.apply_long_buy, buyUpdate]
  split_ifs <;> simp

theorem apply_long_sell_cash (p : Portfolio) (t : String) (q : Int) (pr : ℚ) :
    (p.apply_long_sell t q pr).1.cash
      = p.cash + (((p.apply_long_sell t q pr).2 : ℚ) * pr) := by
  simp only [Portfolio.apply_long_sell]
  split_ifs <;> simp

theorem list_sum_update (l : List String) (f g : String → ℚ) (t : String)
    (hnd : l.Nodup) (ht : t ∈ l) (hoth : ∀ u, u ≠ t → g u = f u) :
    (l.map g).sum = (l.map f).sum + (g t - f t) := by
  induction l with
  | nil => simp at ht
  | cons a l ih =>
    rw [List.nodup_cons] at hnd
    rcases List.mem_cons.mp ht with h | h
    · subst h
      have hmap : l.map g = l.map f :=
        List.map_congr_left fun u hu => hoth u fun he => hnd.1 (he ▸ hu)
      simp only [List.map_cons, List.sum_cons, hmap]
      ring
    · have ha : a ≠ t := fun he => hnd.1 (he ▸ h)
      simp only [List.map_cons, List.sum_cons, ih hnd.2 h, hoth a ha]
      ring

theorem marginSum_congr (p q : Portfolio) (htk : q.tickers = p.tickers)
    (hsmu : ∀ u, (q.positions u).short_margin_used
      = (p.positions u).short_margin_used) :
    marginSum q = marginSum p := by
  unfold marginSum
  rw [htk]
  exact congrArg List.sum (List.map_congr_left fun u _ => hsmu u)

theorem marginSum_update (p q : Portfolio) (t : String) (d : ℚ)
    (hnd : p.tickers.Nodup) (ht : t ∈ p.tickers) (htk : q.tickers = p.tickers)
    (hsmut : (q.positions t).short_margin_used
      = (p.positions t).short_margin_used + d)
    (hsmu : ∀ u, u ≠ t → (q.positions u).short_margin_used
      = (p.positions u).short_margin_used) :
    marginSum q = marginSum p + d := by
  unfold marginSum
  rw [htk,
    list_sum_update p.tickers (fun u => (p.positions u).short_margin_used)
      (fun u => (q.positions u).short_margin_used) t hnd ht hsmu,
    hsmut]
  ring

/-- If a new state differs from `p` only by adding `d` to both `margin_used`
and the short margin reserved at one ticker of the portfolio, the margin
invariant is preserved. -/
theorem marginInvariant_of_delta (p q : Portfolio) (t : String) (d : ℚ)
    (hnd : p.tickers.Nodup) (ht : t ∈ p.tickers)
    (htk : q.tickers = p.tickers)
    (hmu : q.margin_used = p.margin_used + d)
    (hsmut : (q.positions t).short_margin_used
      = (p.positions t).short_margin_used + d)
    (hsmu : ∀ u, u ≠ t → (q.positions u).short_margin_used
      = (p.positions u).short_margin_used)
    (hinv : marginInvariant p) : marginInvariant q := by
  unfold marginInvariant
  rw [hmu, hinv, marginSum_update p q t d hnd ht htk hsmut hsmu]

theorem apply_long_buy_marginInvariant (p : Portfolio) (t : String) (q : Int)
    (pr : ℚ) (hnd : p.tickers.Nodup) (ht : t ∈ p.tickers)
    (hinv : marginInvariant p) :
    marginInvariant (p.apply_long_buy t q pr).1 ∧
      (p.apply_long_buy t q pr).1.tickers = p.tickers := by
  simp only [Portfolio.apply_long_buy]
  split_ifs <;>
    first
      | exact ⟨hinv, by trivial⟩
      | exact ⟨marginInvariant_of_delta p _ t 0 hnd ht rfl (by simp [buyUpdate])
          (by simp [buyUpdate])
          (fun u hu => by simp [buyUpdate, Function.update_noteq hu]) hinv, by trivial⟩

theorem apply_long_sell_marginInvariant (p : Portfolio) (t : String) (q : Int)
    (pr : ℚ) (hnd : p.tickers.Nodup) (ht : t ∈ p.tickers)
    (hinv : marginInvariant p) :
    marginInvariant (p.apply_long_sell t q pr).1 ∧
      (p.apply_long_sell t q pr).1.tickers = p.tickers := by
  simp only [Portfolio.apply_long_sell]
  split_ifs with h1
  · exact ⟨hinv, by trivial⟩
  all_goals
    exact ⟨marginInvariant_of_delta p _ t 0 hnd ht rfl (by simp)
      (by simp) (fun u hu => by simp [Function.update_noteq hu]) hinv, by trivial⟩

theorem apply_short_open_marginInvariant (p : Portfolio) (t : String) (q : Int)
    (pr : ℚ) (hnd : p.tickers.Nodup) (ht : t ∈ p.tickers)
    (hinv : marginInvariant p) :
    marginInvariant (p.apply_short_open t q pr).1 ∧
      (p.apply_short_open t q pr).1.tickers = p.tickers := by
  simp only [Portfolio.apply_short_open]
  split_ifs with h1 h2 h3 h4 h5
  · exact ⟨hinv, by trivial⟩
  · exact ⟨marginInvariant_of_delta p _ t
      (pr * (q : ℚ) * p.margin_requirement)
      hnd ht rfl (by simp [shortOpenUpdate]) (by simp [shortOpenUpdate])
      (fun u hu => by simp [shortOpenUpdate, Function.update_noteq hu])
      hinv, by trivial⟩
  · exact ⟨marginInvariant_of_delta p _ t
      (pr * ((truncToInt (p.cash / (pr * p.margin_requirement)) : Int) : ℚ)
        * p.margin_requirement)
      hnd ht rfl (by simp [shortOpenUpdate]) (by simp [shortOpenUpdate])
      (fun u hu => by simp [shortOpenUpdate, Function.update_noteq hu])
      hinv, by trivial⟩
  · exact ⟨hinv, by trivial⟩
  · omega
  · exact ⟨hinv, by trivial⟩

theorem apply_short_cover_marginInvariant (p : Portfolio) (t : String) (q : Int)
    (pr : ℚ) (hnd : p.tickers.Nodup) (ht : t ∈ p.tickers)
    (hinv : marginInvariant p) :
    marginInvariant (p.apply_short_cover t q pr).1 ∧
      (p.apply_short_cover t q pr).1.tickers = p.tickers := by
  by_cases hq : (if 0 < q then min q (p.positions t).short else 0) ≤ 0
  · simp only [Portfolio.apply_short_cover, if_pos hq]
    exact ⟨hinv, by trivial⟩
  · push_neg at hq
    have h0q : 0 < q := by
      by_contra h
      rw [if_neg h] at hq; omega
    rw [if_pos h0q] at hq
    have hshort : 0 < (p.positions t).short := lt_of_lt_of_le hq (min_le_right _ _)
    simp only [Portfolio.apply_short_cover, if_pos h0q,
      if_neg (not_le.mpr hq), if_pos hshort]
    refine ⟨marginInvariant_of_delta p _ t
      (-(((min q (p.positions t).short : Int) : ℚ)
          / (((p.positions t).short : Int) : ℚ)
          * (p.positions t).short_margin_used))
      hnd ht rfl (sub_eq_add_neg _ _) ?_
      (fun u hu => by simp [Function.update_noteq hu]) hinv, by trivial⟩
    simp only [Function.update_same]
    split_ifs with hz
    · -- the covered quantity equals the whole short position: the margin
      -- released is the whole reserve, so the reset to 0 equals the
      -- subtraction
      have heq : min q (p.positions t).short = (p.positions t).short := by omega
      dsimp only
      rw [heq, div_self (by exact_mod_cast hshort.ne' :
        ((((p.positions t).short : Int) : ℚ)) ≠ 0), one_mul]
      ring
    · dsimp only
      ring

theorem applyOp_marginInvariant (p : Portfolio) (op : Op)
    (hnd : p.tickers.Nodup) (ht : op.ticker ∈ p.tickers)
    (hinv : marginInvariant p) :
    marginInvariant (applyOp p op).1 ∧ (applyOp p op).1.tickers = p.tickers := by
  cases op with
  | buy t q pr => exact apply_long_buy_marginInvariant p t q pr hnd ht hinv
  | sell t q pr => exact apply_long_sell_marginInvariant p t q pr hnd ht hinv
  | shortOpen t q pr => exact apply_short_open_marginInvariant p t q pr hnd ht hinv
  | shortCover t q pr => exact apply_short_cover_marginInvariant p t q pr hnd ht hinv

/-- Each operation changes each ticker's realized gains by exactly the trade
P&L it books there: a long sell adds `(price - avg_cost) * executed` to the
long side, a short cover adds `(avg_short - price) * executed` to the short
side, and nothing else ever modifies them. -/
theorem applyOp_realized_gains (p : Portfolio) (op : Op) (t : String) :
    ((applyOp p op).1.realized_gains t).long
        = (p.realized_gains t).long + opLongGain p op t ∧
      ((applyOp p op).1.realized_gains t).short
        = (p.realized_gains t).short + opShortGain p op t := by
  cases op with
  | buy tk q pr =>
    simp only [applyOp, Portfolio.apply_long_buy, opLongGain, opShortGain]
    split_ifs <;> simp [buyUpdate]
  | shortOpen tk q pr =>
    simp only [applyOp, Portfolio.apply_short_open, opLongGain, opShortGain]
    split_ifs <;> simp [shortOpenUpdate]
  | sell tk q pr =>
    simp only [applyOp, Portfolio.apply_long_sell, opLongGain, opShortGain]
    by_cases he : (if 0 < q then min q (p.positions tk).long else 0) ≤ 0
    · simp [he]
    · rw [if_neg he]
      by_cases htk : tk = t
      · subst htk
        simp [Function.update_same, he]
      · have hne : t ≠ tk := fun h => htk h.symm
        simp [Function.update_noteq hne, htk]
  | shortCover tk q pr =>
    simp only [applyOp, Portfolio.apply_short_cover, opLongGain, opShortGain]
    by_cases he : (if 0 < q then min q (p.positions tk).short else 0) ≤ 0
    · simp [he]
    · rw [if_neg he]
      by_cases htk : tk = t
      · subst htk
        simp [Function.update_same, he]
      · have hne : t ≠ tk := fun h => htk h.symm
        simp [Function.update_noteq hne, htk]

/-! ### Claim theorems -/

/-- **C6** (frame / no-op): with a non-positive requested quantity, each of
the four trade primitives returns 0 and leaves the portfolio completely
unchanged (cash, margin, every position field, every realized gain). -/
theorem c6_nonpos_quantity_noop (p : Portfolio) (t : String) (q : Int) (pr : ℚ)
    (ht : t ∈ p.tickers) (hq : q ≤ 0) :
    p.apply_long_buy t q pr = (p, 0) ∧ p.apply_long_sell t q pr = (p, 0) ∧
      p.apply_short_open t q pr = (p, 0) ∧ p.apply_short_cover t q pr = (p, 0) := by
  have hq' : ¬ 0 < q := not_lt.mpr hq
  refine ⟨?_, ?_, ?_, ?_⟩ <;>
    simp [Portfolio.apply_long_buy, Portfolio.apply_long_sell,
      Portfolio.apply_short_open, Portfolio.apply_short_cover, hq, hq']

/-- Witness for C6 at a concrete portfolio and `quantity = -1`. -/
theorem c6_nonpos_quantity_noop_witness :
    "A" ∈ (Portfolio.init ["A"] 100 (1/2)).tickers ∧
      ((Portfolio.init ["A"] 100 (1/2)).apply_long_buy "A" (-1) 10
          = (Portfolio.init ["A"] 100 (1/2), 0) ∧
        (Portfolio.init ["A"] 100 (1/2)).apply_long_sell "A" (-1) 10
          = (Portfolio.init ["A"] 100 (1/2), 0) ∧
        (Portfolio.init ["A"] 100 (1/2)).apply_short_open "A" (-1) 10
          = (Portfolio.init ["A"] 100 (1/2), 0) ∧
        (Portfolio.init ["A"] 100 (1/2)).apply_short_cover "A" (-1) 10
          = (Portfolio.init ["A"] 100 (1/2), 0)) :=
  ⟨by decide,
    c6_nonpos_quantity_noop (Portfolio.init ["A"] 100 (1/2)) "A" (-1) 10
      (by decide) (by decide)⟩

/-- **C1** (cash conservation for the long leg): over any sequence of
`apply_long_buy` / `apply_long_sell` operations, the final cash equals the
initial cash minus the executed buy costs plus the executed sell proceeds,
where each executed quantity is the value the operation returned. -/
theorem c1_long_cash_conservation (p : Portfolio) (ops : List Op)
    (h : ∀ op ∈ ops, op.isLong = true) :
    (runTrace p ops).1.cash
      = p.cash - buyCostSum (runTrace p ops).2
          + sellProceedsSum (runTrace p ops).2 := by
  induction ops generalizing p with
  | nil => simp [runTrace, buyCostSum, sellProceedsSum]
  | cons op ops ih =>
    have hops : ∀ o ∈ ops, o.isLong = true := fun o ho => h o (List.mem_cons_of_mem _ ho)
    have hop : op.isLong = true := h op (List.mem_cons_self _ _)
    cases op with
    | buy t q pr =>
      simp only [runTrace, applyOp, buyCostSum, sellProceedsSum]
      rw [ih _ hops, apply_long_buy_cash]
      ring
    | sell t q pr =>
      simp only [runTrace, applyOp, buyCostSum, sellProceedsSum]
      rw [ih _ hops, apply_long_sell_cash]
      ring
    | shortOpen t q pr => simp [Op.isLong] at hop
    | shortCover t q pr => simp [Op.isLong] at hop

/-- Witness for C1 on a concrete buy/sell sequence. -/
theorem c1_long_cash_conservation_witness :
    (∀ op ∈ [Op.buy "A" 2 10, Op.sell "A" 1 12], op.isLong = true) ∧
      (runTrace (Portfolio.init ["A"] 100 0)
            [Op.buy "A" 2 10, Op.sell "A" 1 12]).1.cash
        = (Portfolio.init ["A"] 100 0).cash
            - buyCostSum (runTrace (Portfolio.init ["A"] 100 0)
                [Op.buy "A" 2 10, Op.sell "A" 1 12]).2
            + sellProceedsSum (runTrace (Portfolio.init ["A"] 100 0)
                [Op.buy "A" 2 10, Op.sell "A" 1 12]).2 :=
  ⟨by decide,
    c1_long_cash_conservation (Portfolio.init ["A"] 100 0)
      [Op.buy "A" 2 10, Op.sell "A" 1 12] (by decide)⟩

/-- **C3** (`apply_long_buy` fill/clamp postcondition): with a positive
requested quantity, if `quantity * price ≤ cash` the full quantity is
executed and cash is debited by the full cost; otherwise the executed
quantity is `floor(cash / price)` clamped below at 0 (and 0 when
`price ≤ 0`), with cash debited by the executed cost.  In particular, from
cash 120, price 20 and requested quantity 10 the call returns 6 and leaves
cash exactly 0. -/
theorem c3_apply_long_buy_fill_clamp :
    (∀ (p : Portfolio) (t : String) (q : Int) (pr : ℚ), 0 < q →
        (((q : ℚ) * pr ≤ p.cash →
            (p.apply_long_buy t q pr).2 = q ∧
              (p.apply_long_buy t q pr).1.cash = p.cash - (q : ℚ) * pr) ∧
          (¬ (q : ℚ) * pr ≤ p.cash →
            (p.apply_long_buy t q pr).2
                = (if 0 < pr then max ⌊p.cash / pr⌋ 0 else 0) ∧
              (p.apply_long_buy t q pr).1.cash
                = p.cash - ((p.apply_long_buy t q pr).2 : ℚ) * pr)))
      ∧ ((Portfolio.init ["A"] 120 0).apply_long_buy "A" 10 20).2 = 6
      ∧ ((Portfolio.init ["A"] 120 0).apply_long_buy "A" 10 20).1.cash = 0 := by
  refine ⟨fun p t q pr hq => ⟨fun hfull => ?_, fun hnot => ?_⟩, ?_, ?_⟩
  · simp only [Portfolio.apply_long_buy, if_neg (by omega : ¬ q ≤ 0), if_pos hfull]
    exact ⟨by simp, by simp [buyUpdate]⟩
  · simp only [Portfolio.apply_long_buy, if_neg (by omega : ¬ q ≤ 0), if_neg hnot]
    by_cases hpr : 0 < pr
    · simp only [if_pos hpr]
      by_cases hm : 0 < truncToInt (p.cash / pr)
      · simp only [if_pos hm]
        refine ⟨?_, by simp [buyUpdate]⟩
        rw [← trunc_max_eq_floor_max, max_eq_left hm.le]
      · simp only [if_neg hm]
        push_neg at hm
        refine ⟨?_, by simp⟩
        rw [← trunc_max_eq_floor_max, max_eq_right hm]
    · simp only [if_neg hpr]
      exact ⟨by simp, by simp⟩
  · norm_num +decide [Portfolio.apply_long_buy, buyUpdate, Portfolio.init,
      truncToInt, Rat.floor_def']
  · norm_num +decide [Portfolio.apply_long_buy, buyUpdate, Portfolio.init,
      truncToInt, Rat.floor_def']

/-- Witness for the universal part of C3, at the clamped branch of the
spec scenario. -/
theorem c3_apply_long_buy_fill_clamp_witness :
    0 < (10 : Int) ∧
      (((10 : Int) : ℚ) * 20 ≤ (Portfolio.init ["A"] 120 0).cash →
          ((Portfolio.init ["A"] 120 0).apply_long_buy "A" 10 20).2 = 10 ∧
            ((Portfolio.init ["A"] 120 0).apply_long_buy "A" 10 20).1.cash
              = (Portfolio.init ["A"] 120 0).cash - ((10 : Int) : ℚ) * 20) ∧
      (¬ ((10 : Int) : ℚ) * 20 ≤ (Portfolio.init ["A"] 120 0).cash →
          ((Portfolio.init ["A"] 120 0).apply_long_buy "A" 10 20).2
              = (if (0 : ℚ) < 20 then max ⌊(Portfolio.init ["A"] 120 0).cash / 20⌋ 0 else 0) ∧
            ((Portfolio.init ["A"] 120 0).apply_long_buy "A" 10 20).1.cash
              = (Portfolio.init ["A"] 120 0).cash
                  - (((Portfolio.init ["A"] 120 0).apply_long_buy "A" 10 20).2 : ℚ) * 20) :=
  ⟨by decide,
    (c3_apply_long_buy_fill_clamp.1 (Portfolio.init ["A"] 120 0) "A" 10 20 (by decide)).1,
    (c3_apply_long_buy_fill_clamp.1 (Portfolio.init ["A"] 120 0) "A" 10 20 (by decide)).2⟩

/-- **C10** (implicit: `apply_short_cover` performs no cash-sufficiency
check): whenever `0 < quantity ≤ short`, the full quantity is executed and
cash changes by (released margin − cover cost) unconditionally; in
particular the reachable state obtained by shorting 2 shares of "A" at 50
(margin 0.5), spending all cash on a long buy of "B", then covering "A" at
60, ends with strictly negative cash. -/
theorem c10_short_cover_unconditional_cash :
    (∀ (p : Portfolio) (t : String) (q : Int) (pr : ℚ),
        0 < q → q ≤ (p.positions t).short →
          (p.apply_short_cover t q pr).2 = q ∧
            (p.apply_short_cover t q pr).1.cash
              = p.cash
                  + ((q : ℚ) / (((p.positions t).short : Int) : ℚ))
                      * (p.positions t).short_margin_used
                  - (q : ℚ) * pr)
      ∧ (runOps (Portfolio.init ["A", "B"] 100 (1/2))
            [.shortOpen "A" 2 50, .buy "B" 3 50, .shortCover "A" 2 60]).cash < 0 := by
  constructor
  · intro p t q pr hq hle
    have hshort : 0 < (p.positions t).short := lt_of_lt_of_le hq hle
    simp only [Portfolio.apply_short_cover, if_pos hq, min_eq_left hle,
      if_neg (by omega : ¬ q ≤ 0), if_pos hshort]
    exact ⟨by simp, by simp⟩
  · norm_num +decide [runOps, applyOp, Portfolio.init, Portfolio.apply_short_open,
      Portfolio.apply_short_cover, Portfolio.apply_long_buy, buyUpdate,
      shortOpenUpdate, truncToInt, Function.update_apply]

/-- Witness for the universal part of C10 at a concrete shorted state. -/
theorem c10_short_cover_unconditional_cash_witness :
    0 < (2 : Int) ∧
      2 ≤ ((({ cash := 0, margin_used := 50, margin_requirement := 1/2,
               tickers := ["A"],
               positions := fun _ => ⟨0, 2, 0, 50, 50⟩,
               realized_gains := fun _ => ⟨0, 0⟩ } : Portfolio)).positions "A").short ∧
      ((({ cash := 0, margin_used := 50, margin_requirement := 1/2,
           tickers := ["A"],
           positions := fun _ => ⟨0, 2, 0, 50, 50⟩,
           realized_gains := fun _ => ⟨0, 0⟩ } : Portfolio)).apply_short_cover "A" 2 60).2 = 2 ∧
      ((({ cash := 0, margin_used := 50, margin_requirement := 1/2,
           tickers := ["A"],
           positions := fun _ => ⟨0, 2, 0, 50, 50⟩,
           realized_gains := fun _ => ⟨0, 0⟩ } : Portfolio)).apply_short_cover "A" 2 60).1.cash
        = (({ cash := 0, margin_used := 50, margin_requirement := 1/2,
              tickers := ["A"],
              positions := fun _ => ⟨0, 2, 0, 50, 50⟩,
              realized_gains := fun _ => ⟨0, 0⟩ } : Portfolio)).cash
            + (((2 : Int) : ℚ)
                / ((((({ cash := 0, margin_used := 50, margin_requirement := 1/2,
                         tickers := ["A"],
                         positions := fun _ => ⟨0, 2, 0, 50, 50⟩,
                         realized_gains := fun _ => ⟨0, 0⟩ } : Portfolio)).positions "A").short : Int) : ℚ))
                * (((({ cash := 0, margin_used := 50, margin_requirement := 1/2,
                        tickers := ["A"],
                        positions := fun _ => ⟨0, 2, 0, 50, 50⟩,
                        realized_gains := fun _ => ⟨0, 0⟩ } : Portfolio)).positions "A").short_margin_used)
            - ((2 : Int) : ℚ) * 60 := by
  refine ⟨by decide, by decide, ?_⟩
  exact c10_short_cover_unconditional_cash.1
    ({ cash := 0, margin_used := 50, margin_requirement := 1/2,
       tickers := ["A"],
       positions := fun _ => ⟨0, 2, 0, 50, 50⟩,
       realized_gains := fun _ => ⟨0, 0⟩ } : Portfolio) "A" 2 60 (by decide) (by decide)

/-- **C2** (margin-used invariant): after any sequence of the four trade
operations on tickers present at construction, the portfolio's `margin_used`
equals the sum over all tickers of the position's `short_margin_used`. -/
theorem c2_margin_used_invariant (tickers : List String) (cash mr : ℚ)
    (ops : List Op) (h : ∀ op ∈ ops, op.ticker ∈ tickers) :
    marginInvariant (runOps (Portfolio.init tickers cash mr) ops) := by
  have key : ∀ (ops : List Op) (p : Portfolio), p.tickers.Nodup →
      marginInvariant p → (∀ op ∈ ops, op.ticker ∈ p.tickers) →
      marginInvariant (runOps p ops) := by
    intro ops
    induction ops with
    | nil => intro p _ hinv _; simpa [runOps] using hinv
    | cons op ops ih =>
      intro p hnd hinv hmem
      have hstep := applyOp_marginInvariant p op hnd
        (hmem op (List.mem_cons_self _ _)) hinv
      exact ih (applyOp p op).1 (by rw [hstep.2]; exact hnd) hstep.1
        (fun o ho => by rw [hstep.2]; exact hmem o (List.mem_cons_of_mem _ ho))
  apply key
  · exact tickers.nodup_dedup
  · show (0 : ℚ) = marginSum (Portfolio.init tickers cash mr)
    unfold marginSum Portfolio.init
    simp
  · intro op hop
    show op.ticker ∈ tickers.dedup
    exact List.mem_dedup.mpr (h op hop)

/-- Witness for C2 on a concrete mixed sequence. -/
theorem c2_margin_used_invariant_witness :
    (∀ op ∈ [Op.shortOpen "A" 2 50, Op.buy "B" 1 10, Op.shortCover "A" 1 60],
        op.ticker ∈ ["A", "B"]) ∧
      marginInvariant (runOps (Portfolio.init ["A", "B"] 1000 (1/2))
        [Op.shortOpen "A" 2 50, Op.buy "B" 1 10, Op.shortCover "A" 1 60]) :=
  ⟨by decide,
    c2_margin_used_invariant ["A", "B"] 1000 (1/2)
      [Op.shortOpen "A" 2 50, Op.buy "B" 1 10, Op.shortCover "A" 1 60] (by decide)⟩

/-- **C5 counterexample**: realized gains are not monotone — a sell below
cost decreases `realized_gains[t].long` (buy 1 @ 10, sell 1 @ 5 books -5),
refuting "never … decreased by any operation". -/
theorem c5_realized_gains_decrease_counterexample :
    ((runOps (Portfolio.init ["A"] 1000 (1/2))
        [.buy "A" 1 10, .sell "A" 1 5]).realized_gains "A").long
      < ((Portfolio.init ["A"] 1000 (1/2)).realized_gains "A").long := by
  norm_num +decide [runOps, applyOp, Portfolio.init, Portfolio.apply_long_buy,
    Portfolio.apply_long_sell, buyUpdate, Function.update_apply]

/-- **C5 (amended)**: per ticker and side, realized gains are modified only
by the trade P&L each sell / cover books there (which may be negative):
after any sequence of the four operations the totals equal the initial
totals plus the accumulated per-operation trade P&L, and no operation ever
resets or otherwise modifies them. -/
theorem c5_realized_gains_accounting (p : Portfolio) (ops : List Op) (t : String) :
    ((runOps p ops).realized_gains t).long
        = (p.realized_gains t).long + longGainsAccum p t ops ∧
      ((runOps p ops).realized_gains t).short
        = (p.realized_gains t).short + shortGainsAccum p t ops := by
  induction ops generalizing p with
  | nil => simp [runOps, longGainsAccum, shortGainsAccum]
  | cons op ops ih =>
    have hstep := applyOp_realized_gains p op t
    have hrest := ih (applyOp p op).1
    constructor
    · show ((runOps (applyOp p op).1 ops).realized_gains t).long = _
      rw [hrest.1, hstep.1, longGainsAccum]
      ring
    · show ((runOps (applyOp p op).1 ops).realized_gains t).short = _
      rw [hrest.2, hstep.2, shortGainsAccum]
      ring

/-- **C4 counterexample**: the round trip is not realized-gain-neutral when
the ticker already holds a long position at a different cost basis.  From a
reachable state holding 1 share bought at 20, buying 1 @ 40 then selling
1 @ 40 books a realized gain of 10 (the weighted basis is 30), although all
of the claim's stated preconditions hold. -/
theorem c4_round_trip_counterexample :
    0 < (1 : Int) ∧ (0 : ℚ) < 40 ∧
      ((1 : Int) : ℚ) * 40
        ≤ (((Portfolio.init ["A"] 1000 (1/2)).apply_long_buy "A" 1 20).1).cash ∧
      "A" ∈ (((Portfolio.init ["A"] 1000 (1/2)).apply_long_buy "A" 1 20).1).tickers ∧
      ¬ (((((Portfolio.init ["A"] 1000 (1/2)).apply_long_buy "A" 1 20).1.apply_long_buy
              "A" 1 40).1.apply_long_sell "A" 1 40).1.realized_gains "A").long
          = (((Portfolio.init ["A"] 1000 (1/2)).apply_long_buy "A" 1 20).1.realized_gains
              "A").long := by
  refine ⟨by decide, by norm_num, ?_, ?_, ?_⟩ <;>
    norm_num +decide [Portfolio.apply_long_buy, Portfolio.apply_long_sell,
      buyUpdate, Portfolio.init, Function.update_apply, truncToInt]

/-- **C4 (amended)**: the round trip is exact when the ticker's long
position is empty before the trade: for every portfolio, ticker present at
construction with `long = 0`, `N > 0`, price `> 0` and `N * price ≤ cash`,
buying `N` then immediately selling `N` at the same price leaves the
ticker's realized long gain unchanged and returns cash to its pre-trade
value. -/
theorem c4_round_trip_amended (p : Portfolio) (t : String) (N : Int) (pr : ℚ)
    (ht : t ∈ p.tickers) (hlong : (p.positions t).long = 0)
    (hN : 0 < N) (hpr : 0 < pr) (hcash : (N : ℚ) * pr ≤ p.cash) :
    (((p.apply_long_buy t N pr).1.apply_long_sell t N pr).1.realized_gains t).long
        = (p.realized_gains t).long ∧
      ((p.apply_long_buy t N pr).1.apply_long_sell t N pr).1.cash = p.cash := by
  have hNne : ((N : Int) : ℚ) ≠ 0 := by
    exact_mod_cast hN.ne'
  have hbuy : p.apply_long_buy t N pr
      = (buyUpdate p t (p.positions t) N ((N : ℚ) * pr), N) := by
    simp only [Portfolio.apply_long_buy, if_neg (by omega : ¬ N ≤ 0), if_pos hcash]
  rw [hbuy]
  have hp'long : ((buyUpdate p t (p.positions t) N ((N : ℚ) * pr)).positions t).long = N := by
    simp [buyUpdate, hlong]
  have hp'basis :
      ((buyUpdate p t (p.positions t) N ((N : ℚ) * pr)).positions t).long_cost_basis
        = pr := by
    simp only [buyUpdate, Function.update_same]
    rw [if_pos (by omega : (0 : Int) < (p.positions t).long + N)]
    rw [hlong]
    push_cast
    rw [mul_zero, zero_add, zero_add, mul_comm, mul_div_assoc, div_self hNne, mul_one]
  have hq' : (if 0 < N
      then min N ((buyUpdate p t (p.positions t) N ((N : ℚ) * pr)).positions t).long
      else 0) = N := by
    rw [if_pos hN, hp'long, min_self]
  simp only [Portfolio.apply_long_sell, hq', if_neg (by omega : ¬ N ≤ 0),
    if_pos (hp'long ▸ hN), hp'basis]
  constructor
  · simp [buyUpdate]
  · show (buyUpdate p t (p.positions t) N ((N : ℚ) * pr)).cash + (N : ℚ) * pr = p.cash
    show p.cash - (N : ℚ) * pr + (N : ℚ) * pr = p.cash
    ring

/-- Witness for the amended C4 at a concrete fresh portfolio. -/
theorem c4_round_trip_amended_witness :
    ("A" ∈ (Portfolio.init ["A"] 100 (1/2)).tickers ∧
        ((Portfolio.init ["A"] 100 (1/2)).positions "A").long = 0 ∧
        0 < (1 : Int) ∧ (0 : ℚ) < 10 ∧
        ((1 : Int) : ℚ) * 10 ≤ (Portfolio.init ["A"] 100 (1/2)).cash) ∧
      ((((Portfolio.init ["A"] 100 (1/2)).apply_long_buy "A" 1 10).1.apply_long_sell
            "A" 1 10).1.realized_gains "A").long
          = ((Portfolio.init ["A"] 100 (1/2)).realized_gains "A").long ∧
        (((Portfolio.init ["A"] 100 (1/2)).apply_long_buy "A" 1 10).1.apply_long_sell
            "A" 1 10).1.cash = (Portfolio.init ["A"] 100 (1/2)).cash :=
  ⟨⟨by decide, by decide, by decide, by norm_num, by norm_num [Portfolio.init]⟩,
    c4_round_trip_amended (Portfolio.init ["A"] 100 (1/2)) "A" 1 10
      (by decide) (by decide) (by decide) (by norm_num)
      (by norm_num [Portfolio.init])⟩

/-- If there are no negative excess returns, or their standard deviation is
finite and at most `1e-12`, Sortino takes the sentinel value: `+inf` when the
mean excess return is positive, `0.0` otherwise. -/
theorem sortinoOf_sentinel (days : ℕ) (excess : List Xfloat)
    (hcase : excess.filter (fun x => xltZero x) = []
      ∨ ∃ v, xstd (excess.filter fun x => xltZero x) = .finStd v
          ∧ v ≤ stdThreshold ^ 2) :
    sortinoOf days excess
      = if xgtZero (xmean excess) then MVal.posInfV else MVal.zeroV := by
  unfold sortinoOf
  rcases hcase with hneg | ⟨v, hv, hvle⟩
  · rw [hneg]
    simp
  · have hlen2 : ¬ (excess.filter fun x => xltZero x).length < 2 := by
      intro hlt
      unfold xstd at hv
      rw [if_pos hlt] at hv
      exact absurd hv (by simp)
    rw [if_pos (by omega : 0 < (excess.filter fun x => xltZero x).length), hv]
    dsimp only
    rw [if_neg (not_lt.mpr hvle)]

/-- **C7 counterexample**: an input series with 3 value points whose metrics
are all null — the points (0, 0, 5) yield one NaN and one infinite daily
return, so fewer than 2 valid returns survive `dropna` although the series
has 3 points; this refutes the parenthetical "i.e., fewer than 3 value
points" reading of the claim. -/
theorem c7_three_points_null_counterexample :
    (compute_metrics 252 (434/10000) [("a", 0), ("b", 0), ("c", 5)]).sharpe_ratio = none ∧
      (compute_metrics 252 (434/10000) [("a", 0), ("b", 0), ("c", 5)]).sortino_ratio = none ∧
      (compute_metrics 252 (434/10000) [("a", 0), ("b", 0), ("c", 5)]).max_drawdown = none ∧
      ([("a", (0:ℚ)), ("b", 0), ("c", 5)] : List (String × ℚ)).length = 3 := by
  norm_num +decide [compute_metrics, cleanReturns, dailyReturns, pctChange, nullMetrics]

/-- **C7 (amended)**: `compute_metrics` returns null for every metric
(sharpe, sortino, max drawdown) exactly when the input series yields fewer
than 2 valid (non-NaN) daily returns, and produces non-null metrics
otherwise.  (With no two consecutive zero values this coincides with having
fewer than 3 value points, the leading point included.) -/
theorem c7_metrics_null_iff (days : ℕ) (rfr : ℚ) (values : List (String × ℚ))
    (hd : 0 < days) :
    ((compute_metrics days rfr values).sharpe_ratio = none
        ↔ (cleanReturns (values.map Prod.snd)).length < 2) ∧
      ((compute_metrics days rfr values).sortino_ratio = none
        ↔ (cleanReturns (values.map Prod.snd)).length < 2) ∧
      ((compute_metrics days rfr values).max_drawdown = none
        ↔ (cleanReturns (values.map Prod.snd)).length < 2) := by
  by_cases h0 : values = []
  · subst h0
    unfold compute_metrics
    rw [if_pos (by simp)]
    simp [nullMetrics, cleanReturns, dailyReturns]
  · obtain ⟨v0, vs, rfl⟩ := List.exists_cons_of_ne_nil h0
    unfold compute_metrics
    rw [if_neg (by simp)]
    by_cases h2 : (cleanReturns ((v0 :: vs).map Prod.snd)).length < 2
    · rw [if_pos h2]
      refine ⟨?_, ?_, ?_⟩ <;> simpa [nullMetrics] using h2
    · rw [if_neg h2]
      refine ⟨?_, ?_, ?_⟩ <;> simpa using h2

/-- Witness for the amended C7 on the empty series. -/
theorem c7_metrics_null_iff_witness :
    0 < 252 ∧
      (((compute_metrics 252 (434/10000) []).sharpe_ratio = none
          ↔ (cleanReturns (([] : List (String × ℚ)).map Prod.snd)).length < 2) ∧
        ((compute_metrics 252 (434/10000) []).sortino_ratio = none
          ↔ (cleanReturns (([] : List (String × ℚ)).map Prod.snd)).length < 2) ∧
        ((compute_metrics 252 (434/10000) []).max_drawdown = none
          ↔ (cleanReturns (([] : List (String × ℚ)).map Prod.snd)).length < 2)) :=
  ⟨by decide, c7_metrics_null_iff 252 (434/10000) [] (by decide)⟩

/-- **C8** (Sortino sentinel rule): when at least 2 valid daily returns
exist and either there is no negative excess return, or the downside
deviation is (finitely) at most `1e-12`, `compute_metrics` produces
Sortino = `+inf` if the mean excess return is positive and `0.0` otherwise;
the computation is total, so no division-by-zero is ever raised. -/
theorem c8_sortino_sentinel (days : ℕ) (rfr : ℚ) (values : List (String × ℚ))
    (hd : 0 < days)
    (h2 : 2 ≤ (cleanReturns (values.map Prod.snd)).length)
    (hcase :
      ((cleanReturns (values.map Prod.snd)).map
          (fun r => xsubFin r (rfr / (days : ℚ)))).filter (fun x => xltZero x) = []
        ∨ ∃ v, xstd (((cleanReturns (values.map Prod.snd)).map
              (fun r => xsubFin r (rfr / (days : ℚ)))).filter (fun x => xltZero x))
            = .finStd v ∧ v ≤ stdThreshold ^ 2) :
    (compute_metrics days rfr values).sortino_ratio
      = some (if xgtZero (xmean ((cleanReturns (values.map Prod.snd)).map
            (fun r => xsubFin r (rfr / (days : ℚ)))))
          then MVal.posInfV else MVal.zeroV) := by
  obtain ⟨v0, vs, rfl⟩ : ∃ v0 vs, values = v0 :: vs := by
    cases values with
    | nil => exfalso; simp [cleanReturns, dailyReturns] at h2
    | cons a l => exact ⟨a, l, rfl⟩
  unfold compute_metrics
  rw [if_neg (by simp), if_neg (not_lt.mpr h2)]
  exact congrArg some (sortinoOf_sentinel days _ hcase)

/-- Witness for C8 on a strictly increasing series (no negative excess,
positive mean excess). -/
theorem c8_sortino_sentinel_witness :
    (0 < 1 ∧
        2 ≤ (cleanReturns (([("a", (1:ℚ)), ("b", 2), ("c", 4)] :
            List (String × ℚ)).map Prod.snd)).length ∧
        ((cleanReturns (([("a", (1:ℚ)), ("b", 2), ("c", 4)] :
              List (String × ℚ)).map Prod.snd)).map
            (fun r => xsubFin r ((0 : ℚ) / ((1 : ℕ) : ℚ)))).filter
              (fun x => xltZero x) = []) ∧
      (compute_metrics 1 0 [("a", 1), ("b", 2), ("c", 4)]).sortino_ratio
        = some (if xgtZero (xmean ((cleanReturns (([("a", (1:ℚ)), ("b", 2), ("c", 4)] :
              List (String × ℚ)).map Prod.snd)).map
              (fun r => xsubFin r ((0 : ℚ) / ((1 : ℕ) : ℚ)))))
            then MVal.posInfV else MVal.zeroV) :=
  ⟨⟨by decide,
      by norm_num +decide [cleanReturns, dailyReturns, pctChange],
      by norm_num +decide [cleanReturns, dailyReturns, pctChange, xsubFin, xltZero]⟩,
    c8_sortino_sentinel 1 0 [("a", 1), ("b", 2), ("c", 4)] (by decide)
      (by norm_num +decide [cleanReturns, dailyReturns, pctChange])
      (Or.inl (by norm_num +decide [cleanReturns, dailyReturns, pctChange,
        xsubFin, xltZero]))⟩

/-- Every normalized action is one of the five valid action strings. -/
theorem normalizeAction_mem (a : RawAction) : normalizeAction a ∈ validActions := by
  cases a with
  | strV s =>
    show (if s ∈ validActions then s else "hold") ∈ validActions
    split_ifs with h
    · exact h
    · decide
  | nonStr => decide

/-- Looking up a requested ticker in the per-ticker map built by the
controller yields its image (first occurrence for duplicates; the image is
the same for every occurrence). -/
theorem lookup_map_self (tickers : List String) (f : String → AgentDecision)
    (t : String) (ht : t ∈ tickers) :
    (tickers.map fun u => (u, f u)).lookup t = some (f t) := by
  induction tickers with
  | nil => simp at ht
  | cons a l ih =>
    rcases List.mem_cons.mp ht with h | h
    · subst h
      simp [List.lookup]
    · by_cases hat : t = a
      · subst hat
        simp [List.lookup]
      · have hba : (t == a) = false := beq_eq_false_iff_ne.mpr hat
        simpa [List.lookup, hba] using ih h

/-- **C9** (`run_agent` output normalization): every requested ticker is
present in the returned decisions map; a ticker the agent omitted maps to
`{hold, 0}`; a proposed valid action string is kept and any invalid or
missing action value is coerced to `hold` (never an exception); a proposed
quantity is kept as its float coercion when that succeeds and defaults to
0.0 otherwise; the resulting action is always one of the five valid
actions. -/
theorem c9_run_agent_normalization (tickers : List String)
    (din : String → Option RawDecision) (t : String) (ht : t ∈ tickers) :
    ∃ d : AgentDecision,
      (run_agent_decisions tickers din).lookup t = some d ∧
      d.action ∈ validActions ∧
      (din t = none → d = ⟨"hold", 0⟩) ∧
      (∀ raw, din t = some raw →
        ((∀ s, raw.action = some (.strV s) → s ∈ validActions → d.action = s) ∧
         (∀ s, raw.action = some (.strV s) → s ∉ validActions → d.action = "hold") ∧
         (raw.action = some .nonStr → d.action = "hold") ∧
         (raw.action = none → d.action = "hold") ∧
         (∀ q, raw.quantity = some (some q) → d.quantity = q) ∧
         (raw.quantity = some none → d.quantity = 0) ∧
         (raw.quantity = none → d.quantity = 0))) := by
  refine ⟨normalizeDecision ((din t).getD ⟨none, none⟩),
    lookup_map_self tickers _ t ht, normalizeAction_mem _, ?_, ?_⟩
  · intro h
    rw [h]
    decide
  · intro raw hraw
    rw [hraw]
    refine ⟨?_, ?_, ?_, ?_, ?_, ?_, ?_⟩
    · intro s hs hmem
      simp [normalizeDecision, normalizeAction, hs, hmem]
    · intro s hs hmem
      simp [normalizeDecision, normalizeAction, hs, hmem]
    · intro hs
      simp [normalizeDecision, normalizeAction, hs]
    · intro hs
      simp [normalizeDecision, normalizeAction, hs]
    · intro q hq
      simp [normalizeDecision, hq]
    · intro hq
      simp [normalizeDecision, hq]
    · intro hq
      simp [normalizeDecision, hq]

/-- Witness for C9: an agent that omits every ticker yields `{hold, 0}`. -/
theorem c9_run_agent_normalization_witness :
    "A" ∈ ["A"] ∧
      ∃ d : AgentDecision,
        (run_agent_decisions ["A"] fun _ => none).lookup "A" = some d ∧
        d.action ∈ validActions ∧
        (((fun _ => none : String → Option RawDecision) "A") = none → d = ⟨"hold", 0⟩) ∧
        (∀ raw, ((fun _ => none : String → Option RawDecision) "A") = some raw →
          ((∀ s, raw.action = some (.strV s) → s ∈ validActions → d.action = s) ∧
           (∀ s, raw.action = some (.strV s) → s ∉ validActions → d.action = "hold") ∧
           (raw.action = some .nonStr → d.action = "hold") ∧
           (raw.action = none → d.action = "hold") ∧
           (∀ q, raw.quantity = some (some q) → d.quantity = q) ∧
           (raw.quantity = some none → d.quantity = 0) ∧
           (raw.quantity = none → d.quantity = 0))) :=
  ⟨by decide, c9_run_agent_normalization ["A"] (fun _ => none) "A" (by decide)⟩

end AIHedgeFund
